import Mathlib

/-!
Shallow embedding of the file intake / validation / prediction logic of the
`DragDropImageBox` component (src/frontend/components/Header.tsx) of the
is-it-a-smiski front end, together with theorems settling the spec's claims
about it.

Modelling conventions:
* A browser `File` is `SFile` (name, size in bytes, MIME type string).
* `URL.createObjectURL` is modelled as allocation of a fresh natural-number
  handle from a counter carried in the state; `URL.revokeObjectURL` is a
  revocation event recorded in the operation's output trace.
* `Date.now()` is an explicit `now : Nat` parameter.
* React state (`items`, `errors`, `loading`, `result`) is an explicit
  `AppState`; each handler is a pure function on it.  The component's
  `useEffect(() => () => items.forEach(revoke), [items])` cleanup runs its
  closure over the previous `items` value whenever the `items` state is set to
  a new array (React compares dependencies with Object.is, and `filter`,
  `slice` and spread always build new arrays), so every operation that calls
  `setItems` also emits revocation events for all previous items' handles.
* `fetch` outcomes are an explicit oracle (`FetchOutcome`).
-/

namespace Smiski

/-- A candidate file: browser `File` with the fields the component reads. -/
structure SFile where
  name : String
  size : Nat
  type : String
deriving DecidableEq, Repr

/-- An accepted selection entry: `{ id, file, url }` where `url` is the
object-URL handle created for the preview. -/
structure SelectedItem where
  id : String
  file : SFile
  url : Nat
deriving DecidableEq, Repr

/-- The component's configuration props (accept list, maxFiles, maxSizeMB). -/
structure Config where
  accept : List String
  maxFiles : Nat
  maxSizeMB : Nat
deriving Repr

/-- The component's state hooks: items, errors, loading, result, plus the
object-URL allocator counter. `result` is the stored response JSON. -/
structure RespJson where
  error : String
  label : String
deriving DecidableEq, Repr

structure AppState where
  items : List SelectedItem
  errors : List String
  loading : Bool
  result : Option RespJson
  nextUrl : Nat
deriving DecidableEq, Repr

def initState : AppState :=
  { items := [], errors := [], loading := false, result := none, nextUrl := 0 }

/-- Model of `bytesLimit = maxSizeMB * 1024 * 1024` (Header.tsx line 101). -/
def bytesLimit (maxSizeMB : Nat) : Nat := maxSizeMB * 1024 * 1024

/-- ASCII whitespace, modelling the characters of JavaScript's \s relevant
here. -/
def isWsChar (c : Char) : Bool :=
  c = ' ' || c = '\t' || c = '\n' || c = '\r'

/-- JavaScript `toLowerCase` restricted to ASCII (file names and MIME types
in this component are ASCII). -/
def lowerChar (c : Char) : Char :=
  if 65 ≤ c.toNat && c.toNat ≤ 90 then Char.ofNat (c.toNat + 32) else c

def jsToLower (s : String) : String := String.mk (s.toList.map lowerChar)

/-- JavaScript `String.prototype.trim`. -/
def jsTrim (s : String) : String :=
  String.mk (((s.toList.dropWhile isWsChar).reverse.dropWhile isWsChar).reverse)

def jsStartsWith (s pre : String) : Bool := pre.toList.isPrefixOf s.toList

def jsEndsWith (s suf : String) : Bool := suf.toList.isSuffixOf s.toList

/-- Model of `r.slice(0, r.length - 1)`: drop the final character. -/
def dropLastChar (s : String) : String := String.mk s.toList.dropLast

/-- The function `patternMatches` (Header.tsx lines 103-121): wildcard category rules,
extension-suffix rules, exact MIME equality; empty accept list accepts all. -/
def patternMatches (accept : List String) (file : SFile) : Bool :=
  if accept.isEmpty then true
  else
    let lowerName := jsToLower file.name
    accept.any fun rule =>
      let r := jsToLower (jsTrim rule)
      if r = "image/*" then jsStartsWith file.type "image/"
      else if jsEndsWith r "/*" then
        let pr := dropLastChar r
        jsStartsWith (jsToLower file.type) pr
      else if jsStartsWith r "." then jsEndsWith lowerName r
      else jsToLower file.type = r

/-- Models `(file.size / (1024*1024)).toFixed(1)` used in the oversize
message: megabytes rendered with one decimal digit (rounded to nearest
tenth). -/
def formatMB (size : Nat) : String :=
  let tenths := (size * 10 + 524288) / 1048576
  toString (tenths / 10) ++ "." ++ toString (tenths % 10)

/-- The capacity-truncation message (Header.tsx lines 131-135). -/
def capacityMsg (remainingSlots maxFiles : Nat) : String :=
  "Only " ++ toString remainingSlots ++ " more file" ++
    (if remainingSlots = 1 then "" else "s") ++ " allowed (max " ++
    toString maxFiles ++ ")."

/-- The unsupported-type message (Header.tsx line 141). -/
def unsupportedMsg (f : SFile) : String := "Unsupported type: " ++ f.name

/-- The oversize message (Header.tsx line 146). -/
def oversizeMsg (f : SFile) (maxSizeMB : Nat) : String :=
  f.name ++ " is " ++ formatMB f.size ++ "MB. Max " ++ toString maxSizeMB ++ "MB."

/-- The duplicate-skipped message (Header.tsx line 160). -/
def dupMsg : String := "Some files were duplicates and skipped."

/-- The empty-selection message (Header.tsx line 243). -/
def noImageMsg : String := "No image to classify"

/-- The generic catch-clause fallback message (Header.tsx line 283). -/
def connectFailMsg : String := "Failed to contact and connect to server."

/-- The per-file type/size check of `validateFiles` (Header.tsx lines
139-150): `none` admits the file, `some e` rejects it with message `e`. -/
def typeSizeCheck (cfg : Config) (f : SFile) : Option String :=
  if !(patternMatches cfg.accept f) then some (unsupportedMsg f)
  else if f.size > bytesLimit cfg.maxSizeMB then some (oversizeMsg f cfg.maxSizeMB)
  else none

/-- The `limited.filter(...)` loop of `validateFiles`: rejection messages are
pushed in input order, kept files preserve input order. -/
def typeSizeFilter (cfg : Config) : List SFile → List String × List SFile
  | [] => ([], [])
  | f :: rest =>
    let r := typeSizeFilter cfg rest
    match typeSizeCheck cfg f with
    | some e => (e :: r.1, r.2)
    | none => (r.1, f :: r.2)

/-- The `${name}-${size}` duplicate key (Header.tsx lines 153-157). -/
def dupKey (name : String) (size : Nat) : String :=
  name ++ "-" ++ toString size

/-- The function `validateFiles` (Header.tsx lines 123-167): capacity truncation to
`remainingSlots = max(0, maxFiles - items.length)` with one message on
truncation, then per-file type/size checks, then suppression of candidates
whose (name, size) key already exists among the current items, with one
generic message if any were dropped.  Returns the error list (which the
component stores with `setErrors`, replacing the previous list) and the
admitted files. -/
def validateFiles (cfg : Config) (items : List SelectedItem) (list : List SFile) :
    List String × List SFile :=
  let remainingSlots := cfg.maxFiles - items.length
  let limited := list.take remainingSlots
  let capErrs : List String :=
    if remainingSlots < list.length then [capacityMsg remainingSlots cfg.maxFiles] else []
  let ts := typeSizeFilter cfg limited
  let existingKey := items.map fun it => dupKey it.file.name it.file.size
  let deduped := ts.2.filter fun f => !(existingKey.contains (dupKey f.name f.size))
  let dupErrs : List String :=
    if deduped.length < ts.2.length then [dupMsg] else []
  (capErrs ++ ts.1 ++ dupErrs, deduped)

/-- Model of the id template (Header.tsx line 174): every run of whitespace
in the synthesized identifier becomes a single dash (Header.tsx line 174). -/
def collapseWs (s : String) : String :=
  let step := s.toList.foldl
    (fun (acc : List Char × Bool) c =>
      if isWsChar c then
        if acc.2 then (acc.1, true) else (acc.1 ++ ['-'], true)
      else (acc.1 ++ [c], false))
    ([], false)
  String.mk step.1

def mkId (now : Nat) (name : String) : String :=
  collapseWs (toString now ++ "_" ++ name)

/-- The observable outcome of `addFiles`: the new state, the object-URL
handles created, the revocation events emitted (by the `[items]` cleanup
effect, which fires whenever `setItems` stores a new array and revokes every
handle of the previous items list), and the `onFiles` notification payload
(`none` when the callback was not invoked). -/
structure AddResult where
  st : AppState
  created : List Nat
  revoked : List Nat
  notified : Option (List SFile)
deriving Repr

/-- The function `addFiles` (Header.tsx lines 169-185): validate (which stores the error
list), return early when nothing was admitted, otherwise build new items with
`${Date.now()}_${name}` identifiers and fresh object URLs, append and
re-truncate to `maxFiles`, and notify `onFiles` with the admitted files. -/
def addFiles (cfg : Config) (now : Nat) (st : AppState) (files : List SFile) :
    AddResult :=
  let v := validateFiles cfg st.items files
  let st0 := { st with errors := v.1 }
  if v.2.length = 0 then
    { st := st0, created := [], revoked := [], notified := none }
  else
    let newItems := v.2.enum.map fun p =>
      ({ id := mkId now p.2.name, file := p.2, url := st.nextUrl + p.1 } : SelectedItem)
    let nextItems := (st.items ++ newItems).take cfg.maxFiles
    { st := { st0 with items := nextItems, nextUrl := st.nextUrl + v.2.length },
      created := newItems.map (fun it => it.url),
      revoked := st.items.map (fun it => it.url),
      notified := some v.2 }

/-- The observable outcome of `removeItem` / the clear handler: new state and
the revocation events in order. -/
structure OpResult where
  st : AppState
  revoked : List Nat
deriving Repr

/-- The function `removeItem` (Header.tsx lines 227-233): revoke the found item's handle
and filter it out; the `[items]` cleanup effect then revokes every handle of
the previous items list (the filtered array is always a fresh array). -/
def removeItem (st : AppState) (id : String) : OpResult :=
  let found := st.items.find? fun p => p.id = id
  let rev1 : List Nat := match found with | some it => [it.url] | none => []
  let newItems := st.items.filter fun p => p.id ≠ id
  { st := { st with items := newItems },
    revoked := rev1 ++ st.items.map fun it => it.url }

/-- The clear handler (Header.tsx lines 417-423): revoke every current
handle, empty items, errors and result, notify `onFiles` with `[]`; the
`[items]` cleanup effect then revokes every handle of the previous items list
a second time. -/
def clearAll (st : AppState) : OpResult :=
  let explicitRev := st.items.map fun it => it.url
  { st := { st with items := [], errors := [], result := none },
    revoked := explicitRev ++ st.items.map fun it => it.url }

/-- Component teardown: the final run of the `[items]` cleanup effect revokes
every handle of the current items list. -/
def teardown (st : AppState) : List Nat :=
  st.items.map fun it => it.url

/-- JavaScript `a || b` on strings: the empty string is falsy. -/
def jsOr (a b : String) : String := if a = "" then b else a

/-- Models `s.replace(/\/+$/, "")`: strip the trailing run of slashes. -/
def stripTrailingSlashes (s : String) : String :=
  String.mk (((s.toList.reverse).dropWhile fun c => c = '/').reverse)

/-- Endpoint resolution (Header.tsx lines 255-263): `apiUrl` is the optional
override prop; `envBase` is `NEXT_PUBLIC_API_URL` with `""` standing for an
absent/undefined variable (the code reduces all absent cases to `""`).  The
override is stripped of trailing slashes and used if the result is truthy;
otherwise a truthy `envBase` is stripped and suffixed with `/api/predict`;
otherwise the relative `/api/predict`. -/
def resolveEndpoint (apiUrl : Option String) (envBase : String) : String :=
  let o := match apiUrl with
    | some u => stripTrailingSlashes u
    | none => ""
  if o ≠ "" then o
  else if envBase ≠ "" then stripTrailingSlashes envBase ++ "/api/predict"
  else "/api/predict"

/-- The `fetch` oracle for one classification attempt.  `success` is a 2xx
response with parsed JSON; `httpError` is a non-2xx response whose body
parsed as JSON (`none` models a JSON `null` body) with the response's
statusText; `netFailure` is a rejected fetch or a body that failed to parse,
carrying the thrown error's message (`none` models a missing message). -/
inductive FetchOutcome where
  | success (json : RespJson)
  | httpError (json : Option RespJson) (statusText : String)
  | netFailure (msg : Option String)
deriving Repr

def isFailure : FetchOutcome → Bool
  | .success _ => false
  | .httpError _ _ => true
  | .netFailure _ => true

/-- The function `handlePredict` (Header.tsx lines 241-287) as a function of the state and
the fetch oracle; the boolean reports whether a network request was issued.
Empty selection: store the single empty-selection error and return without
touching anything else.  Otherwise clear errors, set the busy flag, clear the
result, issue the request; on success store the JSON and clear busy; on
non-2xx throw `json?.error || res.statusText || "Server error"` and on any
throw store `[e?.message || connectFailMsg]` and clear busy. -/
def handlePredict (st : AppState) (outcome : FetchOutcome) : AppState × Bool :=
  if st.items.length = 0 then
    ({ st with errors := [noImageMsg] }, false)
  else
    let st1 := { st with errors := [], loading := true, result := none }
    match outcome with
    | .success json => ({ st1 with result := some json, loading := false }, true)
    | .httpError json statusText =>
      let jerr := match json with | some j => j.error | none => ""
      let err := jsOr jerr (jsOr statusText "Server error")
      ({ st1 with errors := [jsOr err connectFailMsg], loading := false }, true)
    | .netFailure msg =>
      let m := match msg with | some s => s | none => ""
      ({ st1 with errors := [jsOr m connectFailMsg], loading := false }, true)

/-- Written from the claim wording for endpoint resolution: the explicit
override whenever it is present (trailing slashes stripped, reading the
override as one of the bases the claim normalizes), else a nonempty
environment base stripped and suffixed with `/api/predict`, else the relative
path.  Compared against `resolveEndpoint`, which embeds the source. -/
def claimResolveEndpoint (apiUrl : Option String) (envBase : String) : String :=
  match apiUrl with
  | some u => stripTrailingSlashes u
  | none =>
    if envBase = "" then "/api/predict"
    else stripTrailingSlashes envBase ++ "/api/predict"

/-- Written from the amended claim wording: the override is used when present
and still nonempty after trailing-slash stripping; otherwise a nonempty
environment base is stripped and suffixed with `/api/predict`; otherwise the
relative path. -/
def amendedResolveEndpoint (apiUrl : Option String) (envBase : String) : String :=
  match apiUrl with
  | some u =>
    if stripTrailingSlashes u = "" then
      if envBase = "" then "/api/predict"
      else stripTrailingSlashes envBase ++ "/api/predict"
    else stripTrailingSlashes u
  | none =>
    if envBase = "" then "/api/predict"
    else stripTrailingSlashes envBase ++ "/api/predict"

/-- A single-file configuration (the component defaults: accept any image,
maxFiles 1, maxSizeMB 10). -/
def demoCfg : Config := { accept := ["image/*"], maxFiles := 1, maxSizeMB := 10 }

/-- The default configuration with room for two files. -/
def demoCfg2 : Config := { accept := ["image/*"], maxFiles := 2, maxSizeMB := 10 }

def pngA : SFile := { name := "a.png", size := 100, type := "image/png" }

def pngA2 : SFile := { name := "a.png", size := 200, type := "image/png" }

def bigPng : SFile := { name := "big.png", size := 99999999, type := "image/png" }

def txtA : SFile := { name := "a.txt", size := 5, type := "text/plain" }

end Smiski

namespace Smiski

/-- C1: for every batch of candidate files and every current selection within
the configured capacity, the number of selected items after an Add never
exceeds `maxFiles`: the validator truncates the batch to the remaining slots
and `addFiles` re-truncates the appended list to `maxFiles`. -/
theorem add_respects_capacity (cfg : Config) (now : Nat) (st : AppState)
    (files : List SFile) (h : st.items.length ≤ cfg.maxFiles) :
    (addFiles cfg now st files).st.items.length ≤ cfg.maxFiles := by
  by_cases hv : (validateFiles cfg st.items files).2.length = 0
  · simpa [addFiles, hv] using h
  · simp only [addFiles, hv, if_neg hv]
    simp [List.length_take]

theorem add_respects_capacity_witness :
    initState.items.length ≤ demoCfg.maxFiles ∧
    (addFiles demoCfg 3 initState [pngA, pngA2, bigPng]).st.items.length
      ≤ demoCfg.maxFiles :=
  ⟨by decide, add_respects_capacity demoCfg 3 initState [pngA, pngA2, bigPng] (by decide)⟩

/-- C4: with an empty selection, triggering classification stores exactly the
single empty-selection message, issues no network request (the boolean
component is `false`), and leaves every other piece of state (items, result,
busy flag, allocator) unchanged. -/
theorem predict_empty_selection (st : AppState) (outcome : FetchOutcome)
    (h : st.items = []) :
    handlePredict st outcome = ({ st with errors := [noImageMsg] }, false) := by
  simp [handlePredict, h]

theorem predict_empty_selection_witness :
    handlePredict initState (FetchOutcome.netFailure none)
      = ({ initState with errors := [noImageMsg] }, false) :=
  predict_empty_selection initState (FetchOutcome.netFailure none) rfl

/-- C10: when validation admits zero candidates, `addFiles` returns before
creating items: the selection list and allocator are unchanged, no preview
handle is created or revoked, and the `onFiles` callback is not invoked. -/
theorem add_noop_when_nothing_admitted (cfg : Config) (now : Nat) (st : AppState)
    (files : List SFile) (h : (validateFiles cfg st.items files).2 = []) :
    (addFiles cfg now st files).st.items = st.items ∧
    (addFiles cfg now st files).st.nextUrl = st.nextUrl ∧
    (addFiles cfg now st files).st.loading = st.loading ∧
    (addFiles cfg now st files).st.result = st.result ∧
    (addFiles cfg now st files).created = [] ∧
    (addFiles cfg now st files).revoked = [] ∧
    (addFiles cfg now st files).notified = none := by
  simp [addFiles, h]

theorem add_noop_when_nothing_admitted_witness :
    (addFiles demoCfg 3 initState [txtA]).st.items = initState.items ∧
    (addFiles demoCfg 3 initState [txtA]).created = [] ∧
    (addFiles demoCfg 3 initState [txtA]).notified = none := by
  have h := add_noop_when_nothing_admitted demoCfg 3 initState [txtA] (by decide)
  exact ⟨h.1, h.2.2.2.2.1, h.2.2.2.2.2.2⟩

/-- C3 (failing evaluation): the object URL created for a single accepted
file (handle 0, created exactly once) is revoked twice when the selection is
cleared: once by the clear handler and once more by the cleanup of the
effect keyed on `[items]`, which fires on the items change and revokes every
handle of the previous items list.  This contradicts the release-exactly-once
discipline the spec requires. -/
theorem preview_handle_double_release :
    (addFiles demoCfg 7 initState [pngA]).created.count 0 = 1 ∧
    ((addFiles demoCfg 7 initState [pngA]).revoked
      ++ (clearAll (addFiles demoCfg 7 initState [pngA]).st).revoked).count 0 = 2 := by
  decide

/-- C9 (failing evaluation): one Add with two admitted files that share a
name but differ in size (so duplicate suppression keeps both) synthesizes the
identifier `Date.now()_name` for each, so the two retained items carry the
same identifier and the identifier list is not pairwise distinct. -/
theorem batch_identifiers_collide :
    ((addFiles demoCfg2 7 initState [pngA, pngA2]).st.items.map fun it => it.id)
      = ["7_a.png", "7_a.png"] ∧
    ((addFiles demoCfg2 7 initState [pngA, pngA2]).st.items.map fun it => it.file.size)
      = [100, 200] ∧
    ¬ ((addFiles demoCfg2 7 initState [pngA, pngA2]).st.items.map
        fun it => it.id).Nodup := by
  decide

/-- C2 (counterexample): the same (name, size) pair twice within one batch is
not deduplicated — the duplicate filter only consults the existing selection —
so with capacity for two files both copies are retained and no
duplicate-skipped message is emitted. -/
theorem intra_batch_duplicate_retained :
    ((addFiles demoCfg2 7 initState [pngA, pngA]).st.items.map
      fun it => (it.file.name, it.file.size)) = [("a.png", 100), ("a.png", 100)] ∧
    (addFiles demoCfg2 7 initState [pngA, pngA]).st.errors = [] := by
  decide

/-- C5 (counterexample): an override consisting only of slashes is present,
yet the code does not resolve to it: stripping leaves the empty string, which
is falsy, so resolution falls through to the environment base. -/
theorem override_only_resolution_fails :
    resolveEndpoint (some "/") "http://h" = "http://h/api/predict" ∧
    resolveEndpoint (some "/") "http://h" ≠ claimResolveEndpoint (some "/") "http://h" := by
  decide

/-- C5 (amended): the override is used when present and still nonempty after
trailing-slash stripping; otherwise a nonempty environment base is stripped
and suffixed with `/api/predict`; otherwise the relative path is used. -/
theorem endpoint_resolution_amended (apiUrl : Option String) (envBase : String) :
    resolveEndpoint apiUrl envBase = amendedResolveEndpoint apiUrl envBase := by
  cases apiUrl with
  | none =>
    by_cases henv : envBase = "" <;>
      simp [resolveEndpoint, amendedResolveEndpoint, henv]
  | some u =>
    by_cases ho : stripTrailingSlashes u = "" <;>
      by_cases henv : envBase = "" <;>
        simp [resolveEndpoint, amendedResolveEndpoint, ho, henv]

/-- A file admitted by the type/size loop passed the type/size check. -/
theorem typeSizeFilter_mem_admitted (cfg : Config) {f : SFile} :
    ∀ {l : List SFile}, f ∈ (typeSizeFilter cfg l).2 → typeSizeCheck cfg f = none := by
  intro l
  induction l with
  | nil => intro h; simp [typeSizeFilter] at h
  | cons g rest ih =>
    intro h
    simp only [typeSizeFilter] at h
    cases hg : typeSizeCheck cfg g with
    | some e => rw [hg] at h; exact ih h
    | none =>
      rw [hg] at h
      rcases List.mem_cons.mp h with h1 | h2
      · subst h1; exact hg
      · exact ih h2

/-- A file rejected by the type/size check contributes its message to the
error output of the type/size loop. -/
theorem typeSizeFilter_mem_err (cfg : Config) {f : SFile} {e : String} :
    ∀ {l : List SFile}, f ∈ l → typeSizeCheck cfg f = some e →
      e ∈ (typeSizeFilter cfg l).1 := by
  intro l
  induction l with
  | nil => intro h _; simp at h
  | cons g rest ih =>
    intro hmem he
    rcases List.mem_cons.mp hmem with h1 | h2
    · subst h1
      simp only [typeSizeFilter, he]
      exact List.mem_cons_self e _
    · simp only [typeSizeFilter]
      cases hg : typeSizeCheck cfg g with
      | some e2 => exact List.mem_cons_of_mem e2 (ih h2 he)
      | none => exact ih h2 he

/-- When every file passes the type/size check, the loop rejects nothing. -/
theorem typeSizeFilter_all_none (cfg : Config) :
    ∀ {l : List SFile}, (∀ f ∈ l, typeSizeCheck cfg f = none) →
      typeSizeFilter cfg l = ([], l) := by
  intro l
  induction l with
  | nil => intro _; rfl
  | cons g rest ih =>
    intro h
    have hg := h g (List.mem_cons_self g rest)
    have hr := ih fun f hf => h f (List.mem_cons_of_mem _ hf)
    simp [typeSizeFilter, hg, hr]

/-- C7 (amended): an oversize candidate is never admitted by validation, and
whenever it survives capacity truncation (it lies within the first
`maxFiles - currentCount` candidates) the error list contains a message
naming it: the oversize message, or the unsupported-type message when the
file also fails the accept patterns. -/
theorem oversize_never_retained (cfg : Config) (items : List SelectedItem)
    (list : List SFile) (f : SFile)
    (hsize : f.size > bytesLimit cfg.maxSizeMB) :
    f ∉ (validateFiles cfg items list).2 ∧
    (f ∈ list.take (cfg.maxFiles - items.length) →
      unsupportedMsg f ∈ (validateFiles cfg items list).1 ∨
      oversizeMsg f cfg.maxSizeMB ∈ (validateFiles cfg items list).1) := by
  have hcheck : typeSizeCheck cfg f = some (unsupportedMsg f) ∨
      typeSizeCheck cfg f = some (oversizeMsg f cfg.maxSizeMB) := by
    by_cases hp : patternMatches cfg.accept f
    · right; simp [typeSizeCheck, hp, hsize]
    · left; simp [typeSizeCheck, hp]
  constructor
  · intro hmem
    have h2 : f ∈ (typeSizeFilter cfg (list.take (cfg.maxFiles - items.length))).2 := by
      simp only [validateFiles] at hmem
      exact List.mem_of_mem_filter hmem
    have hnone := typeSizeFilter_mem_admitted cfg h2
    rcases hcheck with h | h <;> rw [h] at hnone <;> exact Option.noConfusion hnone
  · intro hin
    rcases hcheck with h | h
    · refine Or.inl ?_
      have hmem := typeSizeFilter_mem_err cfg hin h
      simp only [validateFiles, List.mem_append]
      exact Or.inl (Or.inr hmem)
    · refine Or.inr ?_
      have hmem := typeSizeFilter_mem_err cfg hin h
      simp only [validateFiles, List.mem_append]
      exact Or.inl (Or.inr hmem)

theorem oversize_never_retained_witness :
    bigPng.size > bytesLimit demoCfg.maxSizeMB ∧
    bigPng ∉ (validateFiles demoCfg [] [bigPng]).2 ∧
    (unsupportedMsg bigPng ∈ (validateFiles demoCfg [] [bigPng]).1 ∨
      oversizeMsg bigPng demoCfg.maxSizeMB ∈ (validateFiles demoCfg [] [bigPng]).1) := by
  have h := oversize_never_retained demoCfg [] [bigPng] bigPng (by decide)
  exact ⟨by decide, h.1, h.2 (by decide)⟩

/-- C7 (counterexample): with the selection already at capacity, an oversize
candidate is dropped by the capacity truncation before the size check runs,
so the only message emitted is the capacity message: no message names the
file, although it is indeed not retained. -/
theorem oversize_truncated_unnamed :
    (validateFiles demoCfg
        (addFiles demoCfg 7 initState [pngA]).st.items [bigPng]).1
      = [capacityMsg 0 1] ∧
    bigPng ∉ (validateFiles demoCfg
        (addFiles demoCfg 7 initState [pngA]).st.items [bigPng]).2 ∧
    oversizeMsg bigPng 10 ∉ (validateFiles demoCfg
        (addFiles demoCfg 7 initState [pngA]).st.items [bigPng]).1 ∧
    unsupportedMsg bigPng ∉ (validateFiles demoCfg
        (addFiles demoCfg 7 initState [pngA]).st.items [bigPng]).1 := by
  decide

/-- C2 (amended): duplicate suppression works across Add calls: a candidate
whose (name, size) pair matches a current item is dropped and the
duplicate-skipped message emitted, so adding the same acceptable file in two
successive Add calls (with capacity for at least two files, so that capacity
truncation does not preempt the duplicate check) retains exactly one item
while the second call reports the duplicate.  Duplicates inside a single
batch are not detected. -/
theorem cross_call_duplicate_suppressed (cfg : Config) (f : SFile) (n1 n2 : Nat)
    (hpat : patternMatches cfg.accept f = true)
    (hsize : f.size ≤ bytesLimit cfg.maxSizeMB)
    (hmax : 2 ≤ cfg.maxFiles) :
    ((addFiles cfg n2 (addFiles cfg n1 initState [f]).st [f]).st.items.map
      fun it => (it.file.name, it.file.size)) = [(f.name, f.size)] ∧
    (addFiles cfg n2 (addFiles cfg n1 initState [f]).st [f]).st.errors = [dupMsg] := by
  obtain ⟨k, hk⟩ : ∃ k, cfg.maxFiles = k + 1 + 1 := ⟨cfg.maxFiles - 2, by omega⟩
  have hcheck : typeSizeCheck cfg f = none := by
    simp [typeSizeCheck, hpat, Nat.not_lt.mpr hsize]
  have hv1 : validateFiles cfg [] [f] = ([], [f]) := by
    simp [validateFiles, hk, hcheck, typeSizeFilter]
  have ha1 : (addFiles cfg n1 initState [f]).st
      = { items := [{ id := mkId n1 f.name, file := f, url := 0 }],
          errors := [], loading := false, result := none, nextUrl := 1 } := by
    simp [addFiles, hv1, initState, hk, List.enum, List.enumFrom]
  have hv2 : validateFiles cfg
      [({ id := mkId n1 f.name, file := f, url := 0 } : SelectedItem)] [f]
      = ([dupMsg], []) := by
    simp [validateFiles, hk, hcheck, typeSizeFilter, List.contains, dupMsg]
  rw [ha1]
  simp [addFiles, hv2]

theorem cross_call_duplicate_suppressed_witness :
    ((addFiles demoCfg2 2 (addFiles demoCfg2 1 initState [pngA]).st [pngA]).st.items.map
      fun it => (it.file.name, it.file.size)) = [("a.png", 100)] ∧
    (addFiles demoCfg2 2 (addFiles demoCfg2 1 initState [pngA]).st [pngA]).st.errors
      = [dupMsg] := by
  simpa using
    cross_call_duplicate_suppressed demoCfg2 pngA 1 2 (by decide) (by decide) (by decide)

/-- C6: on every failed classification attempt with a nonempty selection
(non-2xx response, network failure, or malformed body), the error list is
replaced by exactly one message chosen by preference — the server-provided
error field when nonempty, else the HTTP status text when nonempty, else the
generic fallback of that path — the result is cleared at the start of the
attempt and never set on failure, the busy flag ends cleared, the selection
is untouched, and a network request was indeed issued. -/
theorem predict_failure_handling (st : AppState) (outcome : FetchOutcome)
    (h1 : st.items ≠ []) (h2 : isFailure outcome = true) :
    (handlePredict st outcome).1.errors =
      [match outcome with
       | .success _ => ""
       | .httpError json stx =>
         (match json with
          | some j =>
            if j.error ≠ "" then j.error
            else if stx ≠ "" then stx else "Server error"
          | none => if stx ≠ "" then stx else "Server error")
       | .netFailure (some s) => if s ≠ "" then s else connectFailMsg
       | .netFailure none => connectFailMsg] ∧
    (handlePredict st outcome).1.result = none ∧
    (handlePredict st outcome).1.loading = false ∧
    (handlePredict st outcome).1.items = st.items ∧
    (handlePredict st outcome).2 = true := by
  have hlen : ¬ st.items.length = 0 := by
    simpa [List.length_eq_zero] using h1
  cases outcome with
  | success j => simp [isFailure] at h2
  | httpError json stx =>
    cases json with
    | none =>
      by_cases hstx : stx = "" <;>
        simp [handlePredict, hlen, jsOr, hstx, connectFailMsg]
    | some j =>
      by_cases hje : j.error = "" <;> by_cases hstx : stx = "" <;>
        simp [handlePredict, hlen, jsOr, hje, hstx, connectFailMsg]
  | netFailure msg =>
    cases msg with
    | none => simp [handlePredict, hlen, jsOr, connectFailMsg]
    | some s =>
      by_cases hs : s = "" <;> simp [handlePredict, hlen, jsOr, hs, connectFailMsg]

theorem predict_failure_handling_witness :
    (handlePredict (addFiles demoCfg 7 initState [pngA]).st
      (FetchOutcome.httpError (some { error := "bad image", label := "" }) "Bad Request")).1.errors
      = ["bad image"] := by
  have h := predict_failure_handling (addFiles demoCfg 7 initState [pngA]).st
    (FetchOutcome.httpError (some { error := "bad image", label := "" }) "Bad Request")
    (by decide) rfl
  simpa using h.1

/-- A fully successful intake: when the batch fits in the remaining slots,
every file passes the type/size check, and no file duplicates a current
item, validation emits no message and admits the whole batch. -/
theorem validateFiles_no_errors (cfg : Config) (items : List SelectedItem)
    (list : List SFile)
    (hcap : list.length ≤ cfg.maxFiles - items.length)
    (hts : ∀ f ∈ list, typeSizeCheck cfg f = none)
    (hdup : ∀ f ∈ list,
      dupKey f.name f.size ∉ items.map fun it => dupKey it.file.name it.file.size) :
    validateFiles cfg items list = ([], list) := by
  have htake : list.take (cfg.maxFiles - items.length) = list :=
    List.take_of_length_le hcap
  have hts2 : typeSizeFilter cfg list = ([], list) := typeSizeFilter_all_none cfg hts
  have hfilter : (list.filter fun f =>
      !((items.map fun it => dupKey it.file.name it.file.size).contains
        (dupKey f.name f.size))) = list := by
    rw [List.filter_eq_self]
    intro f hf
    simpa [List.contains] using hdup f hf
  have hnotlt : ¬ (cfg.maxFiles - items.length < list.length) := Nat.not_lt.mpr hcap
  simp only [validateFiles, htake, hts2, if_neg hnotlt]
  rw [hfilter]
  simp

/-- C8: each validation call replaces the error list wholesale: after an Add
the stored error list is exactly the message list of that call's validation,
whatever the previous error list was; and a fully successful intake (batch
within capacity, all files acceptable, no duplicates) leaves the error list
empty. -/
theorem errors_replaced_wholesale (cfg : Config) (now : Nat) (st : AppState)
    (e1 : List String) (files : List SFile)
    (hcap : files.length ≤ cfg.maxFiles - st.items.length)
    (hts : ∀ f ∈ files, typeSizeCheck cfg f = none)
    (hdup : ∀ f ∈ files,
      dupKey f.name f.size ∉ st.items.map fun it => dupKey it.file.name it.file.size) :
    (∀ gs : List SFile,
      (addFiles cfg now { st with errors := e1 } gs).st.errors
        = (validateFiles cfg st.items gs).1) ∧
    (addFiles cfg now { st with errors := e1 } files).st.errors = [] := by
  have hall : ∀ gs : List SFile,
      (addFiles cfg now { st with errors := e1 } gs).st.errors
        = (validateFiles cfg st.items gs).1 := by
    intro gs
    by_cases hv : (validateFiles cfg st.items gs).2.length = 0 <;>
      simp [addFiles, hv]
  refine ⟨hall, ?_⟩
  rw [hall files]
  rw [validateFiles_no_errors cfg st.items files hcap hts hdup]

theorem errors_replaced_wholesale_witness :
    (addFiles demoCfg 5 { initState with errors := ["stale message"] } [pngA]).st.errors
      = [] := by
  have h := errors_replaced_wholesale demoCfg 5 initState ["stale message"] [pngA]
    (by decide) (by decide) (by decide)
  exact h.2

end Smiski
